import Mathlib

/-!
Shallow embedding of the goscon backend-pool provider (`src/main.go`) and
proofs about its host-selection, reload and connection-creation logic.

External effects (address resolution, JSON decoding, TCP dialing, the wrap
hook) are passed in as explicit function parameters; the random draw of
`rand.Intn(tp.weight)` becomes an explicit integer argument `v` with the
range facts `0 ≤ v < tp.weight` stated as hypotheses where needed.
Go `int` is modelled as `Int`.
-/

/-- Model of `type Host struct` (main.go:34-40): JSON fields `Addr`, `Weight`,
`Name` plus the private resolved address `addr` (`*net.TCPAddr`, modelled as
`Option String`, `none` standing for the nil pointer). -/
structure Host where
  Addr : String
  Weight : Int
  Name : String
  addr : Option String := none
  deriving Repr, DecidableEq

/-- Model of `type Config struct { Hosts []Host }` (main.go:42-44). -/
structure Config where
  Hosts : List Host
  deriving Repr, DecidableEq

/-- A dialed `*net.TCPConn`, identified abstractly. -/
structure Conn where
  id : Nat
  deriving Repr, DecidableEq

/-- The remote `*scp.Conn`; the provider only reads `TargetServer()`. -/
structure RemoteConn where
  targetServer : String
  deriving Repr, DecidableEq

/-- A `LocalConnWrapper` (main.go:46-48): `Wrapper(local, remote)` returns a
replacement connection or an error. -/
def WrapperFn : Type := Conn → RemoteConn → Except String Conn

/-- Model of `type LocalConnProvider struct` (main.go:50-58): the published
pool (`hosts`, `weight`) and the optional wrap hook. The mutex and the
config-file path play no role in the pure logic. -/
structure LocalConnProvider where
  hosts : List Host
  weight : Int
  wrapper : Option WrapperFn := none

/-- Sum of the weights of a descriptor list. -/
def totalWeight (hosts : List Host) : Int :=
  (hosts.map Host.Weight).sum

/-- Model of the loop body of `GetHostByWeight` (main.go:67-76): the caller
draws `v := rand.Intn(tp.weight)`; the loop returns the current host when
`host.Weight >= v` and otherwise continues with `v - host.Weight`. -/
def getHostByWeightLoop : List Host → Int → Option Host
  | [], _ => none
  | h :: rest, v => if h.Weight ≥ v then some h else getHostByWeightLoop rest (v - h.Weight)

/-- Model of `func (tp *LocalConnProvider) GetHostByWeight()` (main.go:67-76)
with the random draw `v` made explicit. -/
def LocalConnProvider.GetHostByWeight (tp : LocalConnProvider) (v : Int) : Option Host :=
  getHostByWeightLoop tp.hosts v

/-- Modelled from the spec (for comparison with the code): "draws uniformly in
[0,totalWeight); walks descriptors accumulating weight; returns first whose
cumulative weight exceeds the draw". In remaining-draw form: return the host
when `v < host.Weight` (strictly), else continue with `v - host.Weight`. -/
def selectWeightedSpec : List Host → Int → Option Host
  | [], _ => none
  | h :: rest, v => if v < h.Weight then some h else selectWeightedSpec rest (v - h.Weight)

/-- Model of `func (tp *LocalConnProvider) GetHostByName` (main.go:78-86):
linear scan, first descriptor whose `Name` equals the argument, `nil` if none
(the log line has no effect on the result). -/
def getHostByNameLoop : List Host → String → Option Host
  | [], _ => none
  | h :: rest, name => if h.Name = name then some h else getHostByNameLoop rest name

/-- Method form of `GetHostByName`. -/
def LocalConnProvider.GetHostByName (tp : LocalConnProvider) (name : String) : Option Host :=
  getHostByNameLoop tp.hosts name

/-- Model of `func (tp *LocalConnProvider) GetHost(preferred string)`
(main.go:88-94): empty preferred name selects by weight, otherwise by name. -/
def LocalConnProvider.GetHost (tp : LocalConnProvider) (preferred : String) (v : Int) :
    Option Host :=
  if preferred = "" then tp.GetHostByWeight v else tp.GetHostByName preferred

/-- Model of `func (tp *LocalConnProvider) MustSetWrapper` (main.go:60-65):
`panic` when a wrapper is already registered (modelled as `Except.error`
carrying the panic message), otherwise install the wrapper. -/
def LocalConnProvider.MustSetWrapper (tp : LocalConnProvider) (w : WrapperFn) :
    Except String LocalConnProvider :=
  if tp.wrapper.isSome then
    .error "tp.wrapper != nil"
  else
    .ok { tp with wrapper := some w }

/-- The `errNoHost` sentinel (main.go:26). -/
def errNoHost : String := "no host"

/-- Outcome of `CreateLocalConn`, instrumented with the list of hosts that
were dialed and the list of connections that were closed, so that
"no second dial" and "the dialed connection is closed" are statable. -/
structure CLCResult where
  result : Except String Conn
  dialed : List Host
  closed : List Conn

/-- Model of `func (tp *LocalConnProvider) CreateLocalConn` (main.go:96-118).
`dial` stands for `net.DialTCP("tcp", nil, host.addr)` (it receives the
selected host; the code passes that host's resolved address), and `v` is the
random draw used when selection is by weight. The code calls
`glbLocalConnProvider.GetHost`, and `glbLocalConnProvider` is the very
provider `tp` the method runs on. -/
def LocalConnProvider.CreateLocalConn (tp : LocalConnProvider)
    (dial : Host → Except String Conn) (remoteConn : RemoteConn) (v : Int) : CLCResult :=
  match tp.GetHost remoteConn.targetServer v with
  | none => ⟨.error errNoHost, [], []⟩
  | some host =>
    match dial host with
    | .error e => ⟨.error e, [host], []⟩
    | .ok conn =>
      match tp.wrapper with
      | none => ⟨.ok conn, [host], []⟩
      | some w =>
        match w conn remoteConn with
        | .error e => ⟨.error e, [host], [conn]⟩
        | .ok newConn => ⟨.ok newConn, [host], []⟩

/-- Model of the resolution loop of `reset` (main.go:121-130): resolve each
host's address in order, record it in the host's `addr` field, and accumulate
the weight; the first resolution failure aborts with that error. -/
def resetLoop (resolve : String → Except String String) :
    List Host → List Host → Int → Except String (List Host × Int)
  | [], acc, weight => .ok (acc.reverse, weight)
  | h :: rest, acc, weight =>
    match resolve h.Addr with
    | .error e => .error e
    | .ok a => resetLoop resolve rest ({ h with addr := some a } :: acc) (weight + h.Weight)

/-- Model of `func (tp *LocalConnProvider) reset(hosts []Host)` (main.go:120-141):
run the resolution loop, reject a non-positive total weight with the error
`"no hosts"`, and only then publish the new pool. The returned pair is
(error result, provider state after the call); every error path leaves the
provider exactly as it was. `resolve` stands for `net.ResolveTCPAddr`. -/
def LocalConnProvider.reset (tp : LocalConnProvider) (resolve : String → Except String String)
    (hosts : List Host) : Except String Unit × LocalConnProvider :=
  match resetLoop resolve hosts [] 0 with
  | .error e => (.error e, tp)
  | .ok (resolved, weight) =>
    if weight ≤ 0 then
      (.error "no hosts", tp)
    else
      (.ok (), { tp with hosts := resolved, weight := weight })

/-- Model of `func (tp *LocalConnProvider) Reload()` (main.go:143-158).
`decoded` stands for the combined outcome of `os.Open` and JSON decoding of
the config file: an error from either path returns before `reset` is called. -/
def LocalConnProvider.Reload (tp : LocalConnProvider) (resolve : String → Except String String)
    (decoded : Except String Config) : Except String Unit × LocalConnProvider :=
  match decoded with
  | .error e => (.error e, tp)
  | .ok config => tp.reset resolve config.Hosts

/-- Model of `type OptionsFlag struct` (main.go:215-219). -/
structure OptionsFlag where
  set : Bool
  fecData : Int
  fecParity : Int
  deriving Repr, DecidableEq

/-- Outcome of `OptionsFlag.Set`: normal return (`ok`/`err`) or a Go runtime
panic from an out-of-bounds slice index. -/
inductive SetOutcome where
  | ok (o : OptionsFlag)
  | err (e : String)
  | indexOutOfRange
  deriving Repr, DecidableEq

/-- Model of Go's `strings.Split` for a one-character separator (the only
separators `OptionsFlag.Set` uses are `","` and `":"`): splitting the empty
string yields `[""]`, and a trailing separator yields a trailing `""`. -/
def goSplitAux (sep : Char) : List Char → List Char → List String
  | [], acc => [String.mk acc.reverse]
  | c :: rest, acc =>
    if c = sep then String.mk acc.reverse :: goSplitAux sep rest []
    else goSplitAux sep rest (c :: acc)

/-- Split a string on a one-character separator, Go `strings.Split` style. -/
def goSplit (sep : Char) (s : String) : List String :=
  goSplitAux sep s.data []

/-- Model of the loop of `func (o *OptionsFlag) Set(value string)`
(main.go:225-246): each comma-separated item is split on `":"`; items whose
first field is `fec_data` or `fec_parity` read `option[1]` unconditionally —
when the split produced a single element that access is out of bounds.
`atoi` stands for `strconv.Atoi`. -/
def setLoop (atoi : String → Except String Int) (o : OptionsFlag) :
    List String → SetOutcome
  | [] => .ok o
  | pair :: rest =>
    match goSplit ':' pair with
    | [] => .indexOutOfRange
    | key :: restOpt =>
      if key = "fec_data" then
        match restOpt with
        | [] => .indexOutOfRange
        | val :: _ =>
          match atoi val with
          | .error e => .err e
          | .ok data => setLoop atoi { o with fecData := data } rest
      else if key = "fec_parity" then
        match restOpt with
        | [] => .indexOutOfRange
        | val :: _ =>
          match atoi val with
          | .error e => .err e
          | .ok parity => setLoop atoi { o with fecParity := parity } rest
      else
        setLoop atoi o rest

/-- Model of `func (o *OptionsFlag) Set(value string)` (main.go:225-246):
mark the flag as set, split on `","`, and process each item. -/
def OptionsFlag.Set (atoi : String → Except String Int) (o : OptionsFlag) (value : String) :
    SetOutcome :=
  setLoop atoi { o with set := true } (goSplit ',' value)

/-- Numeric value of a decimal digit character, `none` otherwise. -/
def charDigit (c : Char) : Option Nat :=
  if '0' ≤ c ∧ c ≤ '9' then some (c.toNat - '0'.toNat) else none

/-- Value of a non-empty all-digit character list, `none` otherwise. -/
def digitsVal : List Char → Nat → Option Nat
  | [], acc => some acc
  | c :: rest, acc =>
    match charDigit c with
    | none => none
    | some d => digitsVal rest (acc * 10 + d)

/-- Model of `strconv.Atoi` for concrete evaluations: an optional leading
minus sign followed by at least one decimal digit (exact error text aside,
only success/failure matters to the claims). -/
def goAtoi (s : String) : Except String Int :=
  match s.data with
  | [] => .error "invalid syntax"
  | '-' :: rest =>
    match rest, digitsVal rest 0 with
    | _ :: _, some n => .ok (-(n : Int))
    | _, _ => .error "invalid syntax"
  | l =>
    match digitsVal l 0 with
    | some n => .ok (n : Int)
    | none => .error "invalid syntax"

/-- Model of the listener-selection logic of `main` (main.go:295-315): when
neither `-tcp` nor `-kcp` was supplied, tcp becomes the default; a listener
is started for each flag that is set afterwards. Returns
(tcp listener started, kcp listener started). -/
def listenersStarted (tcpSet kcpSet : Bool) : Bool × Bool :=
  let tcpSet := if !kcpSet && !tcpSet then true else tcpSet
  (tcpSet, kcpSet)

/-- Fixture: host named `A` with weight 1. -/
def hostA : Host := ⟨"a.example:80", 1, "A", some "a.example:80"⟩

/-- Fixture: host named `B` with weight 1. -/
def hostB : Host := ⟨"b.example:80", 1, "B", some "b.example:80"⟩

/-- Fixture: host named `Z` with weight 0. -/
def hostZ : Host := ⟨"z.example:80", 0, "Z", some "z.example:80"⟩

/-- Fixture: published pool `[A,B]`, total weight 2, no wrapper. -/
def tpAB : LocalConnProvider := ⟨[hostA, hostB], 2, none⟩

/-- Fixture: published pool `[Z,A]`, total weight 1, no wrapper. -/
def tpZA : LocalConnProvider := ⟨[hostZ, hostA], 1, none⟩

/-- Fixture: pool `[A]` with a wrapper that always fails. -/
def tpAWrapFail : LocalConnProvider :=
  ⟨[hostA], 1, some (fun _ _ => .error "wrap failed")⟩

/-- Fixture: a dial function that always succeeds with connection 7. -/
def dialOk7 : Host → Except String Conn := fun _ => .ok ⟨7⟩

/-- Fixture: a dial function that always fails. -/
def dialDown : Host → Except String Conn := fun _ => .error "connection refused"

/-- C1 (code bug): `GetHostByWeight` compares `host.Weight >= v` instead of
`host.Weight > v`. In the pool `[A weight 1, B weight 1]` every draw
`v ∈ {0,1}` returns `A` — `B`, whose cumulative weight 2 is the first to
exceed the draw `v = 1`, is never selected, so selection is not proportional —
and in the pool `[Z weight 0, A weight 1]` the draw `v = 0` returns the
weight-0 host `Z`. `selectWeightedSpec`, written from the spec's words,
disagrees with the code at `v = 1`. -/
theorem getHostByWeight_off_by_one :
    tpAB.GetHostByWeight 0 = some hostA ∧
    tpAB.GetHostByWeight 1 = some hostA ∧
    selectWeightedSpec tpAB.hosts 1 = some hostB ∧
    tpZA.GetHostByWeight 0 = some hostZ := by
  refine ⟨by decide, by decide, by decide, by decide⟩

/-- C7 (counterexample): `reset` accepts a descriptor list containing a
negative weight as long as the total is positive: with every address
resolving, the pool `[weight -1, weight 3]` is accepted (`ok`) and published
with the negative weight intact, refuting "a descriptor list containing a
negative weight is rejected". -/
theorem reset_accepts_negative_weight_cex :
    ((⟨[], 0, none⟩ : LocalConnProvider).reset (fun s => .ok s)
        [⟨"a.example:80", -1, "A", none⟩, ⟨"b.example:80", 3, "B", none⟩]).1 = .ok () ∧
    ((⟨[], 0, none⟩ : LocalConnProvider).reset (fun s => .ok s)
        [⟨"a.example:80", -1, "A", none⟩, ⟨"b.example:80", 3, "B", none⟩]).2.hosts.map
        Host.Weight = [-1, 3] ∧
    ((⟨"a.example:80", -1, "A", none⟩ : Host).Weight < 0) := by
  refine ⟨rfl, rfl, by decide⟩

/-- C8: when neither the `-tcp` nor the `-kcp` flag is supplied, `main`
defaults to tcp: the tcp listener is started and the kcp listener is not. -/
theorem default_listen_tcp_only : listenersStarted false false = (true, false) := by
  decide

/-- C9 (code bug): `OptionsFlag.Set` is not total. For every `atoi`, the
items `"fec_data"` and `"fec_parity"` without a `':'`-separated value make
the code read `option[1]` of a one-element slice — an out-of-bounds index
(Go runtime panic) instead of a parse error — while well-formed items are
parsed and malformed numbers yield `strconv.Atoi`'s error. -/
theorem optionsFlag_Set_oob :
    (∀ atoi, OptionsFlag.Set atoi ⟨false, 0, 0⟩ "fec_data" = .indexOutOfRange) ∧
    (∀ atoi, OptionsFlag.Set atoi ⟨false, 0, 0⟩ "fec_parity" = .indexOutOfRange) ∧
    (∀ atoi, OptionsFlag.Set atoi ⟨false, 0, 0⟩ "kcp,fec_data" = .indexOutOfRange) ∧
    OptionsFlag.Set goAtoi ⟨false, 0, 0⟩ "fec_data:3,fec_parity:2" = .ok ⟨true, 3, 2⟩ ∧
    OptionsFlag.Set goAtoi ⟨false, 0, 0⟩ "fec_data:xy" = .err "invalid syntax" := by
  refine ⟨fun _ => rfl, fun _ => rfl, fun _ => rfl, by decide, by decide⟩

/-- Helper for C10: the selection loop finds a host whenever the weights are
nonnegative and the draw is within the total weight. -/
theorem getHostByWeightLoop_isSome (hosts : List Host) (v : Int)
    (hw : ∀ h ∈ hosts, 0 ≤ h.Weight) (hv0 : 0 ≤ v) (hv : v < totalWeight hosts) :
    (getHostByWeightLoop hosts v).isSome := by
  induction hosts generalizing v with
  | nil =>
    simp only [totalWeight, List.map_nil, List.sum_nil] at hv
    omega
  | cons h rest ih =>
    rw [getHostByWeightLoop]
    by_cases hc : h.Weight ≥ v
    · simp [hc]
    · rw [if_neg hc]
      have hrest : totalWeight (h :: rest) = h.Weight + totalWeight rest := by
        simp [totalWeight]
      apply ih
      · intro h' hm
        exact hw h' (List.mem_cons_of_mem _ hm)
      · omega
      · omega

/-- C10: under the invariant established by a successful `reset` — every host
weight nonnegative and the published `weight` equal to the (positive) total —
`GetHostByWeight` returns a host for every draw `v` in `[0, weight)`: the
`nil` fall-through after the loop is unreachable. -/
theorem getHostByWeight_never_nil (tp : LocalConnProvider) (v : Int)
    (hw : ∀ h ∈ tp.hosts, 0 ≤ h.Weight) (htot : tp.weight = totalWeight tp.hosts)
    (hv0 : 0 ≤ v) (hv : v < tp.weight) :
    (tp.GetHostByWeight v).isSome := by
  rw [LocalConnProvider.GetHostByWeight]
  exact getHostByWeightLoop_isSome tp.hosts v hw hv0 (htot ▸ hv)

/-- Witness for C10 at the concrete pool `[A,B]` and draw 1. -/
theorem getHostByWeight_never_nil_witness :
    (tpAB.GetHostByWeight 1).isSome :=
  getHostByWeight_never_nil tpAB 1 (by decide) (by decide) (by decide) (by decide)

/-- Helper for C3: the lookup loop returns `none` exactly when no descriptor
has the requested name. -/
theorem getHostByNameLoop_none_iff (hosts : List Host) (name : String) :
    getHostByNameLoop hosts name = none ↔ ∀ h ∈ hosts, h.Name ≠ name := by
  induction hosts with
  | nil => simp [getHostByNameLoop]
  | cons h rest ih =>
    rw [getHostByNameLoop]
    by_cases hc : h.Name = name
    · simp [hc, List.forall_mem_cons]
    · simp [hc, ih, List.forall_mem_cons]

/-- Helper for C3: the lookup loop returns `some h0` exactly when `h0` carries
the requested name and is the first such descriptor in pool order. -/
theorem getHostByNameLoop_some_iff (hosts : List Host) (name : String) (h0 : Host) :
    getHostByNameLoop hosts name = some h0 ↔
      h0.Name = name ∧ ∃ pre post, hosts = pre ++ h0 :: post ∧ ∀ h' ∈ pre, h'.Name ≠ name := by
  induction hosts with
  | nil =>
    rw [getHostByNameLoop]
    constructor
    · intro habs
      exact Option.noConfusion habs
    · rintro ⟨-, pre, post, hdec, -⟩
      cases pre <;> simp at hdec
  | cons h rest ih =>
    rw [getHostByNameLoop]
    by_cases hc : h.Name = name
    · rw [if_pos hc]
      constructor
      · intro he
        injection he with he
        subst he
        exact ⟨hc, [], rest, rfl, by simp⟩
      · rintro ⟨hn, pre, post, hdec, hpre⟩
        cases pre with
        | nil =>
          simp only [List.nil_append] at hdec
          injection hdec with h1 h2
          rw [h1]
        | cons p pre' =>
          exfalso
          simp only [List.cons_append] at hdec
          injection hdec with h1 h2
          exact hpre p (List.mem_cons_self _ _) (h1 ▸ hc)
    · rw [if_neg hc, ih]
      constructor
      · rintro ⟨hn, pre, post, hdec, hpre⟩
        refine ⟨hn, h :: pre, post, by simp [hdec], ?_⟩
        intro h' hm
        rcases List.mem_cons.mp hm with hm | hm
        · exact hm ▸ hc
        · exact hpre h' hm
      · rintro ⟨hn, pre, post, hdec, hpre⟩
        cases pre with
        | nil =>
          simp only [List.nil_append] at hdec
          injection hdec with h1 h2
          exact absurd (h1 ▸ hn) hc
        | cons p pre' =>
          simp only [List.cons_append] at hdec
          injection hdec with h1 h2
          refine ⟨hn, pre', post, h2, ?_⟩
          intro h' hm
          exact hpre h' (List.mem_cons_of_mem _ hm)

/-- C3: `GetHostByName` is total over the pool: it returns `none` exactly when
no descriptor carries the requested name (never substituting any other host),
and returns `some h` exactly when `h` carries the name and is the first such
descriptor in pool order (first-match tie-break for duplicates). -/
theorem getHostByName_first_match (tp : LocalConnProvider) (name : String) :
    (tp.GetHostByName name = none ↔ ∀ h ∈ tp.hosts, h.Name ≠ name) ∧
    (∀ h, tp.GetHostByName name = some h ↔
      h.Name = name ∧ ∃ pre post, tp.hosts = pre ++ h :: post ∧ ∀ h' ∈ pre, h'.Name ≠ name) :=
  ⟨getHostByNameLoop_none_iff tp.hosts name,
   fun h => getHostByNameLoop_some_iff tp.hosts name h⟩

/-- Witness for C3: in a pool with two hosts both named `A`, lookup returns
the first; in the pool `[A,B]`, looking up the absent name `C` returns
`none`. -/
theorem getHostByName_first_match_witness :
    ((⟨[hostA, ⟨"b2.example:80", 1, "A", some "b2.example:80"⟩], 2, none⟩ :
        LocalConnProvider).GetHostByName "A" = some hostA) ∧
    (tpAB.GetHostByName "C" = none) := by
  constructor
  · exact ((getHostByName_first_match
      ⟨[hostA, ⟨"b2.example:80", 1, "A", some "b2.example:80"⟩], 2, none⟩ "A").2 hostA).mpr
      ⟨by decide, [], [⟨"b2.example:80", 1, "A", some "b2.example:80"⟩], rfl, by simp⟩
  · exact (getHostByName_first_match tpAB "C").1.mpr (by decide)

/-- Helper for C2: every error path of `reset` (resolution failure or
non-positive total weight) leaves the provider untouched. -/
theorem reset_error_preserves_pool (tp : LocalConnProvider)
    (resolve : String → Except String String) (hosts : List Host) (e : String)
    (h : (tp.reset resolve hosts).1 = .error e) :
    (tp.reset resolve hosts).2 = tp := by
  rw [LocalConnProvider.reset] at h ⊢
  cases hres : resetLoop resolve hosts [] 0 with
  | error e' => rfl
  | ok p =>
    obtain ⟨resolved, weight⟩ := p
    rw [hres] at h
    by_cases hw : weight ≤ 0
    · simp [hw]
    · simp [hw] at h

/-- C2: `Reload` is atomic. Whenever it returns an error — file open/decode
failure, a host address that fails to resolve, or total weight ≤ 0 — the
provider's published pool is exactly what it was before the call, and a
subsequent `GetHost` behaves exactly as it did on the previous pool. -/
theorem Reload_error_preserves_pool (tp : LocalConnProvider)
    (resolve : String → Except String String) (decoded : Except String Config) (e : String)
    (h : (tp.Reload resolve decoded).1 = .error e) :
    (tp.Reload resolve decoded).2 = tp ∧
    (∀ preferred v, ((tp.Reload resolve decoded).2).GetHost preferred v
        = tp.GetHost preferred v) := by
  have hpool : (tp.Reload resolve decoded).2 = tp := by
    cases decoded with
    | error e' => rfl
    | ok config => exact reset_error_preserves_pool tp resolve config.Hosts e h
  exact ⟨hpool, fun preferred v => by rw [hpool]⟩

/-- Witness for C2 at three concrete failures against the live pool `[A,B]`:
an address that fails to resolve, a reload whose total weight is 0, and a
malformed config file. -/
theorem Reload_error_preserves_pool_witness :
    ((tpAB.Reload (fun _ => .error "resolve failed") (.ok ⟨[hostA]⟩)).2 = tpAB ∧
     (∀ preferred v, ((tpAB.Reload (fun _ => .error "resolve failed") (.ok ⟨[hostA]⟩)).2).GetHost
        preferred v = tpAB.GetHost preferred v)) ∧
    ((tpAB.Reload (fun s => .ok s) (.ok ⟨[hostZ]⟩)).2 = tpAB ∧
     (∀ preferred v, ((tpAB.Reload (fun s => .ok s) (.ok ⟨[hostZ]⟩)).2).GetHost
        preferred v = tpAB.GetHost preferred v)) ∧
    ((tpAB.Reload (fun s => .ok s) (.error "malformed json")).2 = tpAB ∧
     (∀ preferred v, ((tpAB.Reload (fun s => .ok s) (.error "malformed json")).2).GetHost
        preferred v = tpAB.GetHost preferred v)) :=
  ⟨Reload_error_preserves_pool tpAB (fun _ => .error "resolve failed") (.ok ⟨[hostA]⟩)
      "resolve failed" rfl,
   Reload_error_preserves_pool tpAB (fun s => .ok s) (.ok ⟨[hostZ]⟩) "no hosts" rfl,
   Reload_error_preserves_pool tpAB (fun s => .ok s) (.error "malformed json")
      "malformed json" rfl⟩

/-- Helper for C7: the resolution loop accumulates exactly the sum of the
descriptor weights. -/
theorem resetLoop_ok_weight (resolve : String → Except String String)
    (hosts : List Host) (acc : List Host) (w : Int) (resolved : List Host) (w' : Int)
    (h : resetLoop resolve hosts acc w = .ok (resolved, w')) :
    w' = w + totalWeight hosts := by
  induction hosts generalizing acc w with
  | nil =>
    rw [resetLoop] at h
    injection h with h
    injection h with h1 h2
    simp [totalWeight, ← h2]
  | cons hh rest ih =>
    rw [resetLoop] at h
    cases hr : resolve hh.Addr with
    | error e => rw [hr] at h; exact Except.noConfusion h
    | ok a =>
      rw [hr] at h
      have := ih _ _ h
      have htw : totalWeight (hh :: rest) = hh.Weight + totalWeight rest := by
        simp [totalWeight]
      omega

/-- C7 (amended): every pool accepted by `reset` has total weight > 0 (and
the published `weight` is exactly that total); individual host weights are
not validated, so a negative weight is accepted whenever the total stays
positive (see the counterexample). -/
theorem reset_positive_total_only (tp : LocalConnProvider)
    (resolve : String → Except String String) (hosts : List Host)
    (h : (tp.reset resolve hosts).1 = .ok ()) :
    0 < (tp.reset resolve hosts).2.weight ∧
    (tp.reset resolve hosts).2.weight = totalWeight hosts := by
  rw [LocalConnProvider.reset] at h ⊢
  cases hres : resetLoop resolve hosts [] 0 with
  | error e' => rw [hres] at h; exact Except.noConfusion h
  | ok p =>
    obtain ⟨resolved, weight⟩ := p
    rw [hres] at h
    by_cases hw : weight ≤ 0
    · simp [hw] at h
    · have := resetLoop_ok_weight resolve hosts [] 0 resolved weight hres
      simp [hw]
      omega

/-- Witness for C7 (amended) at the concrete accepted pool `[A,B]`. -/
theorem reset_positive_total_only_witness :
    0 < ((⟨[], 0, none⟩ : LocalConnProvider).reset (fun s => .ok s) [hostA, hostB]).2.weight ∧
    ((⟨[], 0, none⟩ : LocalConnProvider).reset (fun s => .ok s) [hostA, hostB]).2.weight
      = totalWeight [hostA, hostB] :=
  reset_positive_total_only ⟨[], 0, none⟩ (fun s => .ok s) [hostA, hostB] rfl

/-- C4: `CreateLocalConn` dispatches by preferred name and never falls back:
an empty preferred name selects by weight and a non-empty one by name; when
no host is found it returns `errNoHost` without dialing, when the dial fails
the dial's error is returned as-is having dialed only the selected host, and
no run of `CreateLocalConn` ever dials more than once. -/
theorem CreateLocalConn_dispatch_no_fallback (tp : LocalConnProvider)
    (dial : Host → Except String Conn) (remoteConn : RemoteConn) (v : Int) :
    (remoteConn.targetServer = "" →
      tp.GetHost remoteConn.targetServer v = tp.GetHostByWeight v) ∧
    (remoteConn.targetServer ≠ "" →
      tp.GetHost remoteConn.targetServer v = tp.GetHostByName remoteConn.targetServer) ∧
    (tp.GetHost remoteConn.targetServer v = none →
      (tp.CreateLocalConn dial remoteConn v).result = .error errNoHost ∧
      (tp.CreateLocalConn dial remoteConn v).dialed = []) ∧
    (∀ host e, tp.GetHost remoteConn.targetServer v = some host → dial host = .error e →
      (tp.CreateLocalConn dial remoteConn v).result = .error e ∧
      (tp.CreateLocalConn dial remoteConn v).dialed = [host] ∧
      (tp.CreateLocalConn dial remoteConn v).closed = []) ∧
    (tp.CreateLocalConn dial remoteConn v).dialed.length ≤ 1 := by
  refine ⟨fun he => by simp [LocalConnProvider.GetHost, he],
          fun hne => by simp [LocalConnProvider.GetHost, hne],
          fun hnone => by simp [LocalConnProvider.CreateLocalConn, hnone],
          fun host e hsome hdial => by simp [LocalConnProvider.CreateLocalConn, hsome, hdial],
          ?_⟩
  rw [LocalConnProvider.CreateLocalConn]
  cases tp.GetHost remoteConn.targetServer v with
  | none => simp
  | some host =>
    cases hd : dial host with
    | error e => simp [hd]
    | ok conn =>
      simp only [hd]
      cases hw : tp.wrapper with
      | none => simp [hw]
      | some w =>
        simp only [hw]
        cases hr : w conn remoteConn with
        | error e => simp [hr]
        | ok c => simp [hr]

/-- Witness for C4: against the pool `[A,B]`, the empty name dispatches to
weighted selection and `"A"` to by-name lookup; the absent name `"C"` yields
`errNoHost` with no dial; a failing dial to `A` returns that error as-is with
exactly one dial and nothing closed. -/
theorem CreateLocalConn_dispatch_no_fallback_witness :
    (tpAB.GetHost "" 0 = tpAB.GetHostByWeight 0) ∧
    (tpAB.GetHost "A" 0 = tpAB.GetHostByName "A") ∧
    ((tpAB.CreateLocalConn dialOk7 ⟨"C"⟩ 0).result = .error errNoHost ∧
     (tpAB.CreateLocalConn dialOk7 ⟨"C"⟩ 0).dialed = []) ∧
    ((tpAB.CreateLocalConn dialDown ⟨"A"⟩ 0).result = .error "connection refused" ∧
     (tpAB.CreateLocalConn dialDown ⟨"A"⟩ 0).dialed = [hostA] ∧
     (tpAB.CreateLocalConn dialDown ⟨"A"⟩ 0).closed = []) :=
  ⟨(CreateLocalConn_dispatch_no_fallback tpAB dialOk7 ⟨""⟩ 0).1 rfl,
   (CreateLocalConn_dispatch_no_fallback tpAB dialOk7 ⟨"A"⟩ 0).2.1 (by decide),
   (CreateLocalConn_dispatch_no_fallback tpAB dialOk7 ⟨"C"⟩ 0).2.2.1 (by decide),
   (CreateLocalConn_dispatch_no_fallback tpAB dialDown ⟨"A"⟩ 0).2.2.2.1 hostA
     "connection refused" (by decide) rfl⟩

/-- C5: after a successful dial, a registered wrap hook that fails makes
`CreateLocalConn` close the dialed connection and propagate the hook's error;
with no hook registered the dialed connection is returned unchanged and
nothing is closed. -/
theorem CreateLocalConn_wrapper_hook (tp : LocalConnProvider)
    (dial : Host → Except String Conn) (remoteConn : RemoteConn) (v : Int)
    (host : Host) (conn : Conn)
    (hhost : tp.GetHost remoteConn.targetServer v = some host)
    (hdial : dial host = .ok conn) :
    (∀ w e, tp.wrapper = some w → w conn remoteConn = .error e →
      tp.CreateLocalConn dial remoteConn v = ⟨.error e, [host], [conn]⟩) ∧
    (tp.wrapper = none →
      tp.CreateLocalConn dial remoteConn v = ⟨.ok conn, [host], []⟩) := by
  constructor
  · intro w e hw hres
    simp [LocalConnProvider.CreateLocalConn, hhost, hdial, hw, hres]
  · intro hw
    simp [LocalConnProvider.CreateLocalConn, hhost, hdial, hw]

/-- Witness for C5: with an always-failing hook the dialed connection 7 is
closed and the hook's error propagates; with no hook connection 7 is returned
unchanged. -/
theorem CreateLocalConn_wrapper_hook_witness :
    (tpAWrapFail.CreateLocalConn dialOk7 ⟨"A"⟩ 0 = ⟨.error "wrap failed", [hostA], [⟨7⟩]⟩) ∧
    (tpAB.CreateLocalConn dialOk7 ⟨"A"⟩ 0 = ⟨.ok ⟨7⟩, [hostA], []⟩) :=
  ⟨(CreateLocalConn_wrapper_hook tpAWrapFail dialOk7 ⟨"A"⟩ 0 hostA ⟨7⟩ (by decide) rfl).1
      (fun _ _ => .error "wrap failed") "wrap failed" rfl rfl,
   (CreateLocalConn_wrapper_hook tpAB dialOk7 ⟨"A"⟩ 0 hostA ⟨7⟩ (by decide) rfl).2 rfl⟩

/-- C6: `MustSetWrapper` installs the hook when none is registered, and is a
fatal error (panic, modelled as `Except.error` with the panic message) when
one already is — never a silent overwrite. -/
theorem MustSetWrapper_no_overwrite (tp : LocalConnProvider) (w : WrapperFn) :
    (tp.wrapper = none → tp.MustSetWrapper w = .ok { tp with wrapper := some w }) ∧
    (∀ w0, tp.wrapper = some w0 → tp.MustSetWrapper w = .error "tp.wrapper != nil") := by
  constructor
  · intro hn
    simp [LocalConnProvider.MustSetWrapper, hn]
  · intro w0 hs
    simp [LocalConnProvider.MustSetWrapper, hs]

/-- Witness for C6: installing on a hook-free provider succeeds; installing
on a provider that already has a hook is the fatal error. -/
theorem MustSetWrapper_no_overwrite_witness :
    (tpAB.MustSetWrapper (fun _ _ => .ok ⟨9⟩)
      = .ok { tpAB with wrapper := some (fun _ _ => .ok ⟨9⟩) }) ∧
    (tpAWrapFail.MustSetWrapper (fun _ _ => .ok ⟨9⟩) = .error "tp.wrapper != nil") :=
  ⟨(MustSetWrapper_no_overwrite tpAB (fun _ _ => .ok ⟨9⟩)).1 rfl,
   (MustSetWrapper_no_overwrite tpAWrapFail (fun _ _ => .ok ⟨9⟩)).2
      (fun _ _ => .error "wrap failed") rfl⟩
